import Mathlib

/-!
Verification development for the candidate-to-job matching and personalization
engine of `src/tools/personalization_engine.py`.

The Python code is embedded shallowly:

* Python strings are Lean `String`s; the Python string primitives used by the
  engine (`lower`, `strip`, `split()`, the substring test `in`) are modelled
  as structurally recursive functions over the character list of a string.
* Python floats are modelled as exact rationals (`ℚ`); every float appearing
  in the engine is a small decimal literal, so no rounding behaviour is lost.
* Python dicts with a fixed key set are Lean structures.  A key that one code
  path inserts and another omits (`total_required` / `total_matched`) becomes
  an `Option` field, `none` meaning the key is absent.  String-valued dict
  keys that the code reads with `get(k, '')` are plain `String` fields with
  `""` standing for an absent key; `get(k, default)` with a non-empty default
  is modelled by testing for `""`.
* The one mutation in the engine (`exp_copy = exp.copy();
  exp_copy['relevance_score'] = ...`) is embedded by explicit state passing:
  `find_relevant_experience` and `generate_personalized_content` return, next
  to their result, the caller-visible state of their inputs after the call,
  with the dict write applied to the value produced by `copy()`.
* A Python statement that raises (`skills_analysis['total_matched']` on a dict
  without that key raises `KeyError`) is embedded in `Except`.
-/

/-! ### Python string primitives -/

/-- Substring search on character lists: does `n` occur contiguously in the
second list?  Implements the Python expression `n in hay` for strings. -/
def isSubstrAux : List Char → List Char → Bool
  | n, [] => n.isEmpty
  | n, c :: cs => n.isPrefixOf (c :: cs) || isSubstrAux n cs

/-- Python `needle in hay` for strings (contiguous substring containment). -/
def pySubstr (needle hay : String) : Bool :=
  isSubstrAux needle.data hay.data

/-- Python `s.lower()`. -/
def pyLower (s : String) : String :=
  String.mk (s.data.map Char.toLower)

/-- Python `s.strip()`: remove whitespace from both ends. -/
def pyStrip (s : String) : String :=
  String.mk (((s.data.dropWhile Char.isWhitespace).reverse.dropWhile Char.isWhitespace).reverse)

/-- Greedy whitespace tokenization of a character list: maximal runs of
non-whitespace characters, in order. -/
def wordsOf : List Char → List (List Char)
  | [] => []
  | c :: cs =>
    let rest := wordsOf cs
    if c.isWhitespace then rest
    else
      match cs with
      | [] => [[c]]
      | d :: _ =>
        if d.isWhitespace then [c] :: rest
        else
          match rest with
          | [] => [[c]]
          | w :: rws => (c :: w) :: rws

/-- Python `s.split()` (no separator argument): split on whitespace runs,
empty pieces discarded. -/
def pyWords (s : String) : List String :=
  (wordsOf s.data).map String.mk

/-! ### Data model -/

/-- `cv_data['personal_info']`: fixed string keys, passed through untouched. -/
structure PersonalInfo where
  name : String
  email : String
  phone : String
  location : String
  linkedin : String
deriving DecidableEq

/-- One entry of `cv_data['experience']`.  The `relevance_score` key is absent
(`none`) on caller-supplied entries and is inserted (`some`) only on the
copies built inside `find_relevant_experience`. -/
structure ExperienceEntry where
  title : String
  company : String
  period : String
  description : String
  relevance_score : Option ℚ
deriving DecidableEq

/-- One entry of `cv_data['education']`. -/
structure EducationEntry where
  degree : String
  institution : String
  year : String
deriving DecidableEq

/-- `cv_data` as unpacked by `PersonalizationEngine.__init__`. -/
structure CandidateProfile where
  personal_info : PersonalInfo
  experience : List ExperienceEntry
  skills : List String
  education : List EducationEntry
deriving DecidableEq

/-- `job_analysis` as read by `generate_personalized_content` and
`_generate_talking_points`.  `industry` is an `Option` because the code reads
it with `get('industry', 'technology')`, whose default is non-empty. -/
structure JobAnalysis where
  role_title : String
  company : String
  key_requirements : List String
  industry : Option String
deriving DecidableEq

/-- Result dict of `analyze_skills_match`.  The zero-result branch omits the
keys `total_required` and `total_matched`, hence the `Option` fields. -/
structure SkillMatchResult where
  match_score : ℚ
  matched_skills : List String
  missing_skills : List String
  total_required : Option ℕ
  total_matched : Option ℕ
deriving DecidableEq

/-- Result dict of `generate_personalized_content`. -/
structure PersonalizationResult where
  skills_match : SkillMatchResult
  relevant_experience : List ExperienceEntry
  talking_points : List String
  personal_info : PersonalInfo
  strengths_to_highlight : List String
  areas_to_emphasize : List String
deriving DecidableEq

/-! ### Skill matcher (`analyze_skills_match` and helpers) -/

/-- `skill.lower().strip()`, the normalization applied to both skill lists. -/
def normalizeSkill (s : String) : String :=
  pyStrip (pyLower s)

/-- `PersonalizationEngine._are_abbreviations`. -/
def are_abbreviations (skill1 skill2 : String) : Bool :=
  let abbreviations : List (String × List String) :=
    [("javascript", ["js"]),
     ("python", ["py"]),
     ("react", ["reactjs"]),
     ("node.js", ["nodejs", "node"]),
     ("aws", ["amazon web services"]),
     ("sql", ["mysql", "postgresql", "sqlite"]),
     ("git", ["github", "gitlab"])]
  let skill1_lower := pyLower skill1
  let skill2_lower := pyLower skill2
  abbreviations.any fun p =>
    (skill1_lower = p.1 && p.2.contains skill2_lower)
    || (skill2_lower = p.1 && p.2.contains skill1_lower)

/-- `PersonalizationEngine._calculate_similarity`. -/
def calculate_similarity (skill1 skill2 : String) : ℚ :=
  if skill1 = skill2 then 1.0
  else if pySubstr skill1 skill2 || pySubstr skill2 skill1 then 0.8
  else if are_abbreviations skill1 skill2 then 0.9
  else 0.0

/-- The per-pair test of the inner loop of `analyze_skills_match`
(line 36 of the source): substring either way, or similarity above `0.7`. -/
def skillMatches (job_skill cv_skill : String) : Bool :=
  pySubstr job_skill cv_skill || pySubstr cv_skill job_skill
    || decide ((0.7 : ℚ) < calculate_similarity job_skill cv_skill)

/-- The requirement loop of `analyze_skills_match`: for each normalized job
skill, search the normalized CV skills (first match wins, only the job skill
is recorded); returns `(matched_skills, missing_skills)`. -/
def matchLoop (normalized_cv_skills : List String) :
    List String → List String × List String
  | [] => ([], [])
  | job_skill :: rest =>
    let p := matchLoop normalized_cv_skills rest
    if normalized_cv_skills.any (fun cv_skill => skillMatches job_skill cv_skill) then
      (job_skill :: p.1, p.2)
    else
      (p.1, job_skill :: p.2)

/-- `PersonalizationEngine.analyze_skills_match` (the engine holds
`self.skills`; here it is the first argument). -/
def analyze_skills_match (skills job_requirements : List String) : SkillMatchResult :=
  if job_requirements = [] ∨ skills = [] then
    { match_score := 0, matched_skills := [], missing_skills := [],
      total_required := none, total_matched := none }
  else
    let normalized_job_skills := job_requirements.map normalizeSkill
    let normalized_cv_skills := skills.map normalizeSkill
    let p := matchLoop normalized_cv_skills normalized_job_skills
    { match_score :=
        if normalized_job_skills ≠ [] then
          (p.1.length : ℚ) / (normalized_job_skills.length : ℚ)
        else 0,
      matched_skills := p.1,
      missing_skills := p.2,
      total_required := some normalized_job_skills.length,
      total_matched := some p.1.length }

/-! ### Experience relevance ranker (`find_relevant_experience` and helpers) -/

/-- `PersonalizationEngine._calculate_title_similarity`. -/
def calculate_title_similarity (job_title exp_title : String) : ℚ :=
  let job_words := (pyWords (pyLower job_title)).toFinset
  let exp_words := (pyWords (pyLower exp_title)).toFinset
  if job_words = ∅ ∨ exp_words = ∅ then 0.0
  else
    let i := job_words ∩ exp_words
    let u := job_words ∪ exp_words
    if u ≠ ∅ then (i.card : ℚ) / (u.card : ℚ) else 0.0

/-- `PersonalizationEngine._count_skills_in_text`. -/
def count_skills_in_text (skills : List String) (text : String) : ℕ :=
  if text = "" then 0
  else skills.countP fun skill => pySubstr (pyLower skill) (pyLower text)

/-- The per-entry `relevance_score` computed by the loop body of
`find_relevant_experience` (two guarded accumulations into `0`). -/
def relevanceScore (job_title : String) (required_skills : List String)
    (exp : ExperienceEntry) : ℚ :=
  (if job_title ≠ "" ∧ exp.title ≠ "" then
     calculate_title_similarity job_title exp.title * 0.4
   else 0)
  + (if required_skills ≠ [] ∧ exp.description ≠ "" then
       ((count_skills_in_text required_skills exp.description : ℚ)
         / (required_skills.length : ℚ)) * 0.6
     else 0)

/-- Python `exp.copy()`: a fresh dict with the same entries. -/
def expCopy (exp : ExperienceEntry) : ExperienceEntry :=
  { title := exp.title, company := exp.company, period := exp.period,
    description := exp.description, relevance_score := exp.relevance_score }

/-- The scored copy of an experience entry: `exp.copy()` followed by the
write `exp_copy['relevance_score'] = relevance_score`. -/
def scoredCopy (job_title : String) (required_skills : List String)
    (exp : ExperienceEntry) : ExperienceEntry :=
  { expCopy exp with relevance_score := some (relevanceScore job_title required_skills exp) }

/-- The loop body of `find_relevant_experience` for one entry: the first
component is the caller-visible entry after the iteration (the write
`exp_copy['relevance_score'] = relevance_score` targets the value produced by
`exp.copy()`, so the original is untouched); the second is the entry appended
to `relevant_experience`, if any. -/
def processEntry (job_title : String) (required_skills : List String)
    (exp : ExperienceEntry) : ExperienceEntry × Option ExperienceEntry :=
  if (0.1 : ℚ) < relevanceScore job_title required_skills exp then
    (exp, some (scoredCopy job_title required_skills exp))
  else
    (exp, none)

/-- The sort key of line 122: `x.get('relevance_score', 0)`. -/
def sortKey (x : ExperienceEntry) : ℚ :=
  x.relevance_score.getD 0

/-- The comparison of the stable descending sort
`relevant_experience.sort(key=..., reverse=True)`. -/
def sortLE (a b : ExperienceEntry) : Bool :=
  decide (sortKey b ≤ sortKey a)

/-- `PersonalizationEngine.find_relevant_experience`.  Returns the
caller-visible state of `self.experience` after the call, paired with the
returned list (Python `list.sort(key=..., reverse=True)` is a stable
descending sort, modelled by `mergeSort` with the reversed key order). -/
def find_relevant_experience (experience : List ExperienceEntry)
    (job_title : String) (required_skills : List String) :
    List ExperienceEntry × List ExperienceEntry :=
  if experience = [] then (experience, [])
  else
    let processed := experience.map (processEntry job_title required_skills)
    let post := processed.map Prod.fst
    let relevant_experience := processed.filterMap Prod.snd
    let sorted := relevant_experience.mergeSort sortLE
    (post, sorted.take 3)

/-! ### Personalization synthesizer (`generate_personalized_content` and helpers) -/

/-- The talking point of lines 187-189 (skills match). -/
def skillsPoint (matched_skills : List String) : String :=
  "I have strong experience in " ++ String.intercalate ", " (matched_skills.take 3)
    ++ " which directly align with your requirements."

/-- The talking point of lines 193-196 (top experience); `top_exp.get('title',
'Software Engineer')` falls back when the title is absent. -/
def experiencePoint (top_exp : ExperienceEntry) : String :=
  "In my role as " ++ (if top_exp.title = "" then "Software Engineer" else top_exp.title)
    ++ ", I gained valuable experience that would benefit your team."

/-- The talking point of lines 200-203 (company interest). -/
def companyPoint (company_name : String) : String :=
  "I\x27m excited about the opportunity to contribute to " ++ company_name
    ++ "\x27s innovative projects and growth."

/-- The talking point of lines 206-209 (industry enthusiasm, unconditional). -/
def industryPoint (industry : String) : String :=
  "I\x27m passionate about " ++ industry
    ++ " and always eager to learn new technologies and approaches."

/-- `PersonalizationEngine._generate_talking_points`. -/
def generate_talking_points (skills_analysis : SkillMatchResult)
    (relevant_experience : List ExperienceEntry) (job_analysis : JobAnalysis) :
    List String :=
  (if (0.5 : ℚ) < skills_analysis.match_score then
     [skillsPoint skills_analysis.matched_skills]
   else [])
  ++ (match relevant_experience with
      | top_exp :: _ => [experiencePoint top_exp]
      | [] => [])
  ++ (if job_analysis.company ≠ "" then [companyPoint job_analysis.company] else [])
  ++ [industryPoint (job_analysis.industry.getD "technology")]

/-- `PersonalizationEngine._identify_strengths`.  The read
`skills_analysis['total_matched']` raises `KeyError` when the key is absent
(the zero-result branch of `analyze_skills_match` omits it); the fault is
embedded in `Except`. -/
def identify_strengths (skills_analysis : SkillMatchResult)
    (experience : List ExperienceEntry) (education : List EducationEntry) :
    Except String (List String) :=
  let s1 := if (0.7 : ℚ) < skills_analysis.match_score then
      ["Strong technical skills alignment"] else []
  match skills_analysis.total_matched with
  | none => Except.error "KeyError: total_matched"
  | some total_matched =>
    let s2 := if 5 < total_matched then ["Extensive relevant experience"] else []
    let s3 := if 2 < experience.length then ["Proven track record"] else []
    let s4 := if education ≠ [] then ["Strong educational background"] else []
    Except.ok (s1 ++ s2 ++ s3 ++ s4)

/-- `PersonalizationEngine._identify_emphasis_areas`. -/
def identify_emphasis_areas (job_analysis : JobAnalysis) : List String :=
  let joined := pyLower (String.intercalate " " job_analysis.key_requirements)
  (if pySubstr "communication" joined then
     ["Communication and collaboration skills"] else [])
  ++ (if pySubstr "leadership" joined || pySubstr "management" joined then
        ["Leadership and project management experience"] else [])
  ++ (if pySubstr "agile" joined || pySubstr "scrum" joined then
        ["Agile methodology experience"] else [])

/-- `PersonalizationEngine.generate_personalized_content` — the synthesizer.
Returns the result (or the propagated `KeyError`), together with the
caller-visible state of the `CandidateProfile` and the `JobAnalysis` after
the call. -/
def generate_personalized_content (cv : CandidateProfile)
    (job_analysis : JobAnalysis) :
    Except String PersonalizationResult × CandidateProfile × JobAnalysis :=
  let job_title := job_analysis.role_title
  let required_skills := job_analysis.key_requirements
  let skills_analysis := analyze_skills_match cv.skills required_skills
  let fr := find_relevant_experience cv.experience job_title required_skills
  let relevant_experience := fr.2
  let talking_points :=
    generate_talking_points skills_analysis relevant_experience job_analysis
  let result :=
    match identify_strengths skills_analysis cv.experience cv.education with
    | Except.error e => Except.error e
    | Except.ok strengths =>
      Except.ok
        { skills_match := skills_analysis,
          relevant_experience := relevant_experience,
          talking_points := talking_points,
          personal_info := cv.personal_info,
          strengths_to_highlight := strengths,
          areas_to_emphasize := identify_emphasis_areas job_analysis }
  (result, { cv with experience := fr.1 }, job_analysis)

/-! ### Specification-side definitions (for refinement claims) -/

/-- The list collected by the loop of `find_relevant_experience`, described
extensionally: the scored copies of the entries whose relevance score clears
the `0.1` threshold, in input order. -/
def relevantList (job_title : String) (required_skills : List String)
    (exps : List ExperienceEntry) : List ExperienceEntry :=
  (exps.map (scoredCopy job_title required_skills)).filter
    fun c => decide ((0.1 : ℚ) < sortKey c)

/-- Modelled from the spec words of section 4.3 (claim C5): per-entry
relevance score `0.4 * title_similarity + 0.6 * skill_density`, where
`title_similarity` is the Jaccard similarity of the lower-cased,
whitespace-tokenized word sets (0 if either set is empty) and
`skill_density` counts the required skills whose NORMALIZED (lower-cased,
trimmed) form occurs as a case-insensitive substring of the description
(0 if the required list or the description is empty). -/
def specRelevanceScore (job_title : String) (required_skills : List String)
    (exp : ExperienceEntry) : ℚ :=
  let jw := (pyWords (pyLower job_title)).toFinset
  let ew := (pyWords (pyLower exp.title)).toFinset
  let title_similarity :=
    if jw = ∅ ∨ ew = ∅ then 0 else ((jw ∩ ew).card : ℚ) / ((jw ∪ ew).card : ℚ)
  let skill_density :=
    if required_skills = [] ∨ exp.description = "" then 0
    else
      ((required_skills.countP fun sk =>
          pySubstr (normalizeSkill sk) (pyLower exp.description) : ℚ)
        / (required_skills.length : ℚ))
  0.4 * title_similarity + 0.6 * skill_density

/-- Claim C5 as amended: identical to `specRelevanceScore` except that the
skill density counts the LOWER-CASED (untrimmed) requirement, matching
`_count_skills_in_text`. -/
def claimRelevanceScoreLower (job_title : String) (required_skills : List String)
    (exp : ExperienceEntry) : ℚ :=
  let jw := (pyWords (pyLower job_title)).toFinset
  let ew := (pyWords (pyLower exp.title)).toFinset
  let title_similarity :=
    if jw = ∅ ∨ ew = ∅ then 0 else ((jw ∩ ew).card : ℚ) / ((jw ∪ ew).card : ℚ)
  let skill_density :=
    if required_skills = [] ∨ exp.description = "" then 0
    else
      ((required_skills.countP fun sk =>
          pySubstr (pyLower sk) (pyLower exp.description) : ℚ)
        / (required_skills.length : ℚ))
  0.4 * title_similarity + 0.6 * skill_density

/-! ### Basic lemmas about the embedding -/

theorem isSubstrAux_self (l : List Char) : isSubstrAux l l = true := by
  cases l with
  | nil => rfl
  | cons c cs => simp [isSubstrAux, List.isPrefixOf_iff_prefix]

theorem pySubstr_self (s : String) : pySubstr s s = true :=
  isSubstrAux_self s.data

/-- The per-pair test of `analyze_skills_match` collapses to: substring either
way, or listed as abbreviations (the equality case of the similarity function
is subsumed by the substring test, and `0.8`, `0.9` clear the `0.7`
threshold while `0.0` does not). -/
theorem skillMatches_eq (j c : String) :
    skillMatches j c = (pySubstr j c || pySubstr c j || are_abbreviations j c) := by
  unfold skillMatches calculate_similarity
  by_cases h1 : j = c
  · subst h1
    simp [pySubstr_self]
  · rw [if_neg h1]
    by_cases h2 : (pySubstr j c || pySubstr c j) = true
    · simp [h2]
    · have h2l : pySubstr j c = false := by
        cases hx : pySubstr j c <;> simp [hx] at h2 ⊢
      have h2r : pySubstr c j = false := by
        cases hx : pySubstr c j <;> simp [hx] at h2 ⊢
      rw [if_neg (by simp [h2l, h2r])]
      by_cases h3 : are_abbreviations j c = true
      · have h9 : (0.7 : ℚ) < 0.9 := by norm_num
        simp [h2l, h2r, h3, h9]
      · have h3f : are_abbreviations j c = false := by
          cases hx : are_abbreviations j c <;> simp [hx] at h3 ⊢
        have h0 : ¬ ((0.7 : ℚ) < 0.0) := by norm_num
        simp [h2l, h2r, h3f, h0]

/-- The requirement loop is a filter: a requirement lands in `matched_skills`
exactly when some normalized CV skill matches it, and in `missing_skills`
otherwise. -/
theorem matchLoop_eq (ncs : List String) (l : List String) :
    matchLoop ncs l =
      (l.filter (fun j => ncs.any fun c => skillMatches j c),
       l.filter (fun j => !(ncs.any fun c => skillMatches j c))) := by
  induction l with
  | nil => rfl
  | cons j rest ih =>
    simp only [matchLoop, ih, List.filter_cons]
    by_cases h : (ncs.any fun c => skillMatches j c) = true <;> simp [h]

/-- The zero-result branch of `analyze_skills_match`. -/
theorem analyze_zero (S R : List String) (h : R = [] ∨ S = []) :
    analyze_skills_match S R =
      { match_score := 0, matched_skills := [], missing_skills := [],
        total_required := none, total_matched := none } := by
  unfold analyze_skills_match
  rw [if_pos h]

/-- The non-empty branch of `analyze_skills_match`, written with the loop
replaced by its filter description. -/
theorem analyze_nonempty (S R : List String) (hR : R ≠ []) (hS : S ≠ []) :
    analyze_skills_match S R =
      { match_score :=
          (((R.map normalizeSkill).filter
              (fun j => (S.map normalizeSkill).any fun c => skillMatches j c)).length : ℚ)
            / ((R.map normalizeSkill).length : ℚ),
        matched_skills :=
          (R.map normalizeSkill).filter
            (fun j => (S.map normalizeSkill).any fun c => skillMatches j c),
        missing_skills :=
          (R.map normalizeSkill).filter
            (fun j => !((S.map normalizeSkill).any fun c => skillMatches j c)),
        total_required := some (R.map normalizeSkill).length,
        total_matched :=
          some ((R.map normalizeSkill).filter
            (fun j => (S.map normalizeSkill).any fun c => skillMatches j c)).length } := by
  unfold analyze_skills_match
  rw [if_neg (by simp [hR, hS])]
  have hmap : R.map normalizeSkill ≠ [] := by simp [hR]
  simp only [matchLoop_eq, if_pos hmap]

theorem processEntry_fst (jt : String) (req : List String) (e : ExperienceEntry) :
    (processEntry jt req e).1 = e := by
  unfold processEntry
  split <;> rfl

theorem processEntry_snd (jt : String) (req : List String) (e : ExperienceEntry) :
    (processEntry jt req e).2 =
      if (0.1 : ℚ) < relevanceScore jt req e then some (scoredCopy jt req e) else none := by
  unfold processEntry
  split <;> rfl

theorem sortKey_scoredCopy (jt : String) (req : List String) (e : ExperienceEntry) :
    sortKey (scoredCopy jt req e) = relevanceScore jt req e := rfl

/-- The collected `relevant_experience` list is `relevantList`. -/
theorem filterMap_processEntry (jt : String) (req : List String)
    (exps : List ExperienceEntry) :
    exps.filterMap (Prod.snd ∘ processEntry jt req) = relevantList jt req exps := by
  induction exps with
  | nil => rfl
  | cons e es ih =>
    simp only [List.filterMap_cons, Function.comp_apply, processEntry_snd,
      relevantList, List.map_cons, List.filter_cons, sortKey_scoredCopy] at *
    by_cases h : (0.1 : ℚ) < relevanceScore jt req e
    · simp [h, ih]
    · simp [h, ih]

/-- The caller-visible experience list is unchanged by
`find_relevant_experience`: the `relevance_score` write targets the copies. -/
theorem find_relevant_fst (exps : List ExperienceEntry) (jt : String)
    (req : List String) :
    (find_relevant_experience exps jt req).1 = exps := by
  unfold find_relevant_experience
  split
  · rfl
  · simp only [List.map_map]
    have h : (Prod.fst ∘ processEntry jt req) = id := by
      funext e
      exact processEntry_fst jt req e
    rw [h, List.map_id]

/-- The returned list of `find_relevant_experience`, extensionally. -/
theorem find_relevant_snd (exps : List ExperienceEntry) (jt : String)
    (req : List String) :
    (find_relevant_experience exps jt req).2 =
      ((relevantList jt req exps).mergeSort sortLE).take 3 := by
  unfold find_relevant_experience
  split
  · next h => simp [h, relevantList]
  · simp only [List.filterMap_map, filterMap_processEntry]

theorem sortLE_trans : ∀ a b c, sortLE a b → sortLE b c → sortLE a c := by
  intro a b c hab hbc
  simp only [sortLE, decide_eq_true_eq] at *
  exact le_trans hbc hab

theorem sortLE_total : ∀ a b, sortLE a b || sortLE b a := by
  intro a b
  simp only [sortLE]
  rcases le_total (sortKey b) (sortKey a) with h | h <;> simp [h]

/-- Stability of the modelled sort: the entries carrying any fixed score
appear in the sorted list exactly as they appear in the input list. -/
theorem filter_sortKey_mergeSort (l : List ExperienceEntry) (s : ℚ) :
    ((l.mergeSort sortLE).filter fun e => decide (sortKey e = s)) =
      l.filter fun e => decide (sortKey e = s) := by
  have hpair : (l.filter fun e => decide (sortKey e = s)).Pairwise
      (fun a b => sortLE a b = true) := by
    apply List.pairwise_of_forall_mem_list
    intro a ha b hb
    have ha' := (List.mem_filter.mp ha).2
    have hb' := (List.mem_filter.mp hb).2
    simp only [decide_eq_true_eq] at ha' hb'
    simp [sortLE, ha', hb']
  have hsub : List.Sublist (l.filter fun e => decide (sortKey e = s)) (l.mergeSort sortLE) :=
    List.sublist_mergeSort sortLE_trans sortLE_total hpair (List.filter_sublist l)
  have hsub2 : List.Sublist (l.filter fun e => decide (sortKey e = s))
      ((l.mergeSort sortLE).filter fun e => decide (sortKey e = s)) := by
    have h2 := hsub.filter (fun e => decide (sortKey e = s))
    simpa [List.filter_filter] using h2
  have hperm : List.Perm ((l.mergeSort sortLE).filter fun e => decide (sortKey e = s))
      (l.filter fun e => decide (sortKey e = s)) :=
    (List.mergeSort_perm l sortLE).filter _
  exact (hsub2.eq_of_length hperm.length_eq.symm).symm

/-! ### Claims about the skill matcher -/

/-- Claim C2, counterexample: with an empty candidate skill list and the
non-empty requirement list `["Python"]`, the zero result of
`analyze_skills_match` has BOTH `matched_skills` and `missing_skills` empty,
so the normalized requirement `"python"` is in neither list — the two lists
do not partition the normalized requirements, and `missing_skills` does not
contain all normalized requirements. -/
theorem claim_c2_counterexample :
    "python" ∈ (["Python"].map normalizeSkill)
    ∧ (analyze_skills_match ([] : List String) ["Python"]).matched_skills = []
    ∧ (analyze_skills_match ([] : List String) ["Python"]).missing_skills = [] := by
  refine ⟨?_, ?_, ?_⟩
  · have h : normalizeSkill "Python" = "python" := by decide
    simp [h]
  · rw [analyze_zero ([] : List String) ["Python"] (Or.inr rfl)]
  · rw [analyze_zero ([] : List String) ["Python"] (Or.inr rfl)]

/-- Claim C2 as amended: whenever the candidate skill list is non-empty,
`matched_skills` and `missing_skills` partition the normalized requirement
list exactly (no requirement is in both; a string is a normalized requirement
iff it is in one of the two); when the candidate skill list is empty, the
zero result has `matched_skills = []` and `missing_skills = []`, so
`missing_skills` does NOT then list the missing requirements. -/
theorem claim_c2_partition (S R : List String) :
    (S ≠ [] →
      (∀ x : String,
          ¬ (x ∈ (analyze_skills_match S R).matched_skills
              ∧ x ∈ (analyze_skills_match S R).missing_skills))
      ∧ (∀ x : String,
          x ∈ R.map normalizeSkill ↔
            (x ∈ (analyze_skills_match S R).matched_skills
              ∨ x ∈ (analyze_skills_match S R).missing_skills)))
    ∧ (S = [] →
        (analyze_skills_match S R).matched_skills = []
        ∧ (analyze_skills_match S R).missing_skills = []) := by
  constructor
  · intro hS
    by_cases hR : R = []
    · rw [analyze_zero S R (Or.inl hR)]
      subst hR
      simp
    · rw [analyze_nonempty S R hR hS]
      constructor
      · intro x hx
        have h1 := (List.mem_filter.mp hx.1).2
        have h2 := (List.mem_filter.mp hx.2).2
        rw [h1] at h2
        simp at h2
      · intro x
        constructor
        · intro hx
          by_cases hmatch : ((S.map normalizeSkill).any fun c => skillMatches x c) = true
          · exact Or.inl (List.mem_filter.mpr ⟨hx, hmatch⟩)
          · refine Or.inr (List.mem_filter.mpr ⟨hx, ?_⟩)
            simp only [Bool.not_eq_true] at hmatch
            simp [hmatch]
        · rintro (hx | hx) <;> exact (List.mem_filter.mp hx).1
  · intro hS
    rw [analyze_zero S R (Or.inr hS)]
    exact ⟨rfl, rfl⟩

/-- Witness for the amended claim C2 at `S = ["Python"]`, `R = ["Java"]`:
the partition facts hold concretely for the normalized requirement
`"java"`. -/
theorem claim_c2_partition_witness :
    "java" ∈ (["Java"].map normalizeSkill)
    ∧ ("java" ∈ (analyze_skills_match ["Python"] ["Java"]).matched_skills
        ∨ "java" ∈ (analyze_skills_match ["Python"] ["Java"]).missing_skills) := by
  have h := (claim_c2_partition ["Python"] ["Java"]).1 (by simp)
  have hmem : "java" ∈ (["Java"].map normalizeSkill) := by decide
  exact ⟨hmem, (h.2 "java").mp hmem⟩

/-- Claim C3: the match score equals `|matched| / |required|`, lies in
`[0, 1]`, is `0` for an empty requirement list, and the `total_required` /
`total_matched` counts, when present (both lists non-empty), agree with the
sizes of the matched and missing lists. -/
theorem claim_c3_match_score (S R : List String) :
    (analyze_skills_match S R).match_score
        = ((analyze_skills_match S R).matched_skills.length : ℚ) / (R.length : ℚ)
    ∧ 0 ≤ (analyze_skills_match S R).match_score
    ∧ (analyze_skills_match S R).match_score ≤ 1
    ∧ (analyze_skills_match S []).match_score = 0
    ∧ (analyze_skills_match S R).total_required
        = (if R = [] ∨ S = [] then none
           else some ((analyze_skills_match S R).matched_skills.length
                      + (analyze_skills_match S R).missing_skills.length))
    ∧ (analyze_skills_match S R).total_matched
        = (if R = [] ∨ S = [] then none
           else some (analyze_skills_match S R).matched_skills.length) := by
  by_cases h : R = [] ∨ S = []
  · rw [analyze_zero S R h, analyze_zero S [] (Or.inl rfl)]
    simp [h]
  · push_neg at h
    obtain ⟨hR, hS⟩ := h
    rw [analyze_nonempty S R hR hS, analyze_zero S [] (Or.inl rfl)]
    have hlen : (R.map normalizeSkill).length = R.length := List.length_map R normalizeSkill
    have hfle : ((R.map normalizeSkill).filter
        (fun j => (S.map normalizeSkill).any fun c => skillMatches j c)).length
          ≤ R.length := by
      calc ((R.map normalizeSkill).filter _).length
          ≤ (R.map normalizeSkill).length := List.length_filter_le _ _
        _ = R.length := hlen
    have hRpos : (0 : ℚ) < (R.length : ℚ) := by
      have : 0 < R.length := List.length_pos.mpr hR
      exact_mod_cast this
    refine ⟨by rw [hlen], ?_, ?_, rfl, ?_, ?_⟩
    · positivity
    · rw [hlen, div_le_one hRpos]
      exact_mod_cast hfle
    · rw [if_neg (by simp [hR, hS])]
      dsimp only
      rw [List.length_eq_length_filter_add
        (fun j => (S.map normalizeSkill).any fun c => skillMatches j c)]
    · rw [if_neg (by simp [hR, hS])]

/-- Any-over-a-permutation is invariant: auxiliary for claim C10. -/
theorem permAny {α : Type} (l₁ l₂ : List α) (p : α → Bool) (h : l₁.Perm l₂) :
    l₁.any p = l₂.any p := by
  rw [List.any_eq, List.any_eq]
  simp only [decide_eq_decide]
  constructor
  · rintro ⟨x, hx, hp⟩
    exact ⟨x, h.mem_iff.mp hx, hp⟩
  · rintro ⟨x, hx, hp⟩
    exact ⟨x, h.mem_iff.mpr hx, hp⟩

/-- Symmetry of the abbreviation-table scan, generic in the table:
auxiliary for claim C6. -/
theorem tableScanSymm (l : List (String × List String)) (a b : String) :
    (l.any fun p => (a = p.1 && p.2.contains b) || (b = p.1 && p.2.contains a)) =
      (l.any fun p => (b = p.1 && p.2.contains a) || (a = p.1 && p.2.contains b)) := by
  induction l with
  | nil => rfl
  | cons x xs ih =>
    rw [List.any_cons, List.any_cons, ih]
    congr 1
    rw [Bool.or_comm]

/-- Claim C6: abbreviation lookup is symmetric in its two arguments, and in
particular `match(["JS"], ["javascript"])` and `match(["javascript"], ["JS"])`
both report the (normalized) requirement as matched, with nothing missing. -/
theorem claim_c6_abbreviation_symmetry :
    (∀ s1 s2 : String, are_abbreviations s1 s2 = are_abbreviations s2 s1)
    ∧ (analyze_skills_match ["JS"] ["javascript"]).matched_skills = ["javascript"]
    ∧ (analyze_skills_match ["javascript"] ["JS"]).matched_skills = ["js"]
    ∧ (analyze_skills_match ["JS"] ["javascript"]).missing_skills = []
    ∧ (analyze_skills_match ["javascript"] ["JS"]).missing_skills = [] := by
  refine ⟨?_, ?_, ?_, ?_, ?_⟩
  · intro s1 s2
    unfold are_abbreviations
    exact tableScanSymm _ (pyLower s1) (pyLower s2)
  · rw [analyze_nonempty _ _ (by simp) (by simp)]
    simp only [skillMatches_eq]
    decide
  · rw [analyze_nonempty _ _ (by simp) (by simp)]
    simp only [skillMatches_eq]
    decide
  · rw [analyze_nonempty _ _ (by simp) (by simp)]
    simp only [skillMatches_eq]
    decide
  · rw [analyze_nonempty _ _ (by simp) (by simp)]
    simp only [skillMatches_eq]
    decide

/-- Claim C9: when either input list is empty, the zero result of
`analyze_skills_match` carries neither a `total_required` nor a
`total_matched` key (both `Option` fields are `none`), unlike the non-empty
branch. -/
theorem claim_c9_zero_result_omits_totals (S R : List String)
    (h : S = [] ∨ R = []) :
    (analyze_skills_match S R).total_required = none
    ∧ (analyze_skills_match S R).total_matched = none := by
  rw [analyze_zero S R h.symm]
  exact ⟨rfl, rfl⟩

/-- Witness for claim C9 at `S = []`, `R = ["Python"]`. -/
theorem claim_c9_witness :
    (analyze_skills_match ([] : List String) ["Python"]).total_required = none
    ∧ (analyze_skills_match ([] : List String) ["Python"]).total_matched = none :=
  claim_c9_zero_result_omits_totals [] ["Python"] (Or.inl rfl)

/-- Claim C10: the whole result of `analyze_skills_match` is invariant under
permutation of the candidate skill list — only membership of a matching
candidate matters, never its position. -/
theorem claim_c10_perm_invariance (R S S' : List String) (h : S.Perm S') :
    analyze_skills_match S R = analyze_skills_match S' R := by
  by_cases hS : S = []
  · have hS' : S' = [] := by
      subst hS
      exact h.symm.eq_nil
    rw [analyze_zero S R (Or.inr hS), analyze_zero S' R (Or.inr hS')]
  · have hS' : S' ≠ [] := fun hh => hS ((hh ▸ h : S.Perm []).eq_nil)
    by_cases hR : R = []
    · rw [analyze_zero S R (Or.inl hR), analyze_zero S' R (Or.inl hR)]
    · rw [analyze_nonempty S R hR hS, analyze_nonempty S' R hR hS']
      have hany : ∀ j, ((S.map normalizeSkill).any fun c => skillMatches j c)
          = ((S'.map normalizeSkill).any fun c => skillMatches j c) :=
        fun j => permAny _ _ _ (h.map normalizeSkill)
      simp only [hany]

/-- Witness for claim C10 at the transposition `["a", "b"] ~ ["b", "a"]`. -/
theorem claim_c10_witness :
    analyze_skills_match ["a", "b"] ["x"] = analyze_skills_match ["b", "a"] ["x"] :=
  claim_c10_perm_invariance ["x"] ["a", "b"] ["b", "a"] (by decide)

/-- Claim C4: `find_relevant_experience` returns at most 3 entries; their
relevance scores are non-increasing; ties keep the original relative order
(for every score value, the returned entries carrying it are a subsequence of
the scored input entries in input order); every returned entry carries a
`relevance_score` strictly greater than `0.1`; and an entry scoring exactly
`0.1` (title Jaccard `1/4`, weight `0.4`) is excluded. -/
theorem claim_c4_rank_properties (exps : List ExperienceEntry) (jt : String)
    (req : List String) :
    ((find_relevant_experience exps jt req).2).length ≤ 3
    ∧ (((find_relevant_experience exps jt req).2).map sortKey).Sorted (· ≥ ·)
    ∧ (∀ e, e ∈ (find_relevant_experience exps jt req).2 →
        ∃ q : ℚ, e.relevance_score = some q ∧ (0.1 : ℚ) < q)
    ∧ (∀ s : ℚ, List.Sublist
        (((find_relevant_experience exps jt req).2).filter fun e => decide (sortKey e = s))
        (exps.map (scoredCopy jt req)))
    ∧ relevanceScore "a" [] ⟨"a b c d", "", "", "", none⟩ = 0.1
    ∧ (find_relevant_experience [⟨"a b c d", "", "", "", none⟩] "a" []).2 = [] := by
  have hb : relevanceScore "a" [] ⟨"a b c d", "", "", "", none⟩ = 0.1 := by
    have hts : calculate_title_similarity "a" "a b c d" = 1 / 4 := by
      simp only [calculate_title_similarity]
      rw [if_neg (by decide), if_pos (by decide)]
      rw [show ((pyWords (pyLower "a")).toFinset ∩ (pyWords (pyLower "a b c d")).toFinset).card
            = 1 by decide,
          show ((pyWords (pyLower "a")).toFinset ∪ (pyWords (pyLower "a b c d")).toFinset).card
            = 4 by decide]
      norm_num
    simp only [relevanceScore]
    rw [if_pos (by exact ⟨by decide, by decide⟩), if_neg (by simp)]
    rw [hts]
    norm_num
  refine ⟨?_, ?_, ?_, ?_, hb, ?_⟩
  · rw [find_relevant_snd]
    exact List.length_take_le 3 _
  · rw [find_relevant_snd]
    have hp := List.sorted_mergeSort sortLE_trans sortLE_total (relevantList jt req exps)
    have hp2 := hp.sublist (List.take_sublist 3 _)
    rw [List.Sorted, List.pairwise_map]
    refine hp2.imp ?_
    intro a b hab
    simpa [sortLE] using hab
  · intro e he
    rw [find_relevant_snd] at he
    have h1 : e ∈ (relevantList jt req exps).mergeSort sortLE := List.take_subset 3 _ he
    have h2 : e ∈ relevantList jt req exps := List.mem_mergeSort.mp h1
    obtain ⟨hmem, hcond⟩ := List.mem_filter.mp h2
    obtain ⟨orig, _, rfl⟩ := List.mem_map.mp hmem
    refine ⟨relevanceScore jt req orig, rfl, ?_⟩
    have := of_decide_eq_true hcond
    rwa [sortKey_scoredCopy] at this
  · intro s
    rw [find_relevant_snd]
    have h1 := (List.take_sublist 3
      ((relevantList jt req exps).mergeSort sortLE)).filter
        (fun e => decide (sortKey e = s))
    rw [filter_sortKey_mergeSort] at h1
    refine h1.trans ?_
    refine (List.filter_sublist _).trans ?_
    exact List.filter_sublist _
  · rw [find_relevant_snd]
    have hrl : relevantList "a" [] [⟨"a b c d", "", "", "", none⟩] = [] := by
      simp only [relevantList, List.map_cons, List.map_nil, List.filter,
        sortKey_scoredCopy, hb]
      norm_num
    rw [hrl, List.mergeSort_nil]
    rfl

/-- The guarded title accumulation of the loop equals the spec formulation
`0.4 * title_similarity` with the empty-word-set convention: an empty
`job_title` or entry title yields an empty word set, so both sides are 0. -/
theorem titleTermEq (jt t : String) :
    (if jt ≠ "" ∧ t ≠ "" then calculate_title_similarity jt t * 0.4 else 0)
      = 0.4 * (if (pyWords (pyLower jt)).toFinset = ∅ ∨ (pyWords (pyLower t)).toFinset = ∅
               then 0
               else (((pyWords (pyLower jt)).toFinset ∩ (pyWords (pyLower t)).toFinset).card : ℚ)
                 / (((pyWords (pyLower jt)).toFinset ∪ (pyWords (pyLower t)).toFinset).card : ℚ)) := by
  by_cases hjt : jt = ""
  · subst hjt
    rw [if_neg (by simp), if_pos (Or.inl (by decide))]
    ring
  · by_cases ht : t = ""
    · subst ht
      rw [if_neg (by simp), if_pos (Or.inr (by decide))]
      ring
    · rw [if_pos ⟨hjt, ht⟩]
      dsimp only [calculate_title_similarity]
      by_cases hempty : (pyWords (pyLower jt)).toFinset = ∅ ∨ (pyWords (pyLower t)).toFinset = ∅
      · rw [if_pos hempty, if_pos hempty]
        ring
      · rw [if_neg hempty, if_neg hempty, if_pos ?hu]
        · ring
        · push_neg at hempty
          intro hu
          exact hempty.1 (Finset.union_eq_empty.mp hu).1

/-- The guarded density accumulation of the loop equals the spec formulation
`0.6 * skill_density` once the density counts the lower-cased (untrimmed)
requirement, as `_count_skills_in_text` does. -/
theorem densityTermEq (req : List String) (d : String) :
    (if req ≠ [] ∧ d ≠ "" then ((count_skills_in_text req d : ℚ) / (req.length : ℚ)) * 0.6 else 0)
      = 0.6 * (if req = [] ∨ d = "" then 0
               else ((req.countP fun sk => pySubstr (pyLower sk) (pyLower d) : ℚ)
                 / (req.length : ℚ))) := by
  by_cases h : req = [] ∨ d = ""
  · rw [if_neg (by tauto), if_pos h]
    ring
  · push_neg at h
    rw [if_pos ⟨h.1, h.2⟩, if_neg (not_or.mpr ⟨h.1, h.2⟩)]
    dsimp only [count_skills_in_text]
    rw [if_neg h.2]
    ring

/-- Claim C5, counterexample: the spec formula normalizes (lower-cases AND
trims) the required skill before the substring test, but
`_count_skills_in_text` only lower-cases it.  For the requirement
`"Python "` (trailing blank) and description `"i know python"` the code
scores 0 while the claimed formula scores `0.6`. -/
theorem claim_c5_counterexample :
    relevanceScore "" ["Python "] ⟨"x", "", "", "i know python", none⟩ = 0
    ∧ specRelevanceScore "" ["Python "] ⟨"x", "", "", "i know python", none⟩ = 3 / 5 := by
  have h1 : relevanceScore "" ["Python "] ⟨"x", "", "", "i know python", none⟩ = 0 := by
    dsimp only [relevanceScore]
    rw [if_neg (by simp), if_pos ⟨by simp, by simp⟩]
    rw [show count_skills_in_text ["Python "] "i know python" = 0 from by decide]
    norm_num
  have h2 : specRelevanceScore "" ["Python "] ⟨"x", "", "", "i know python", none⟩ = 3 / 5 := by
    dsimp only [specRelevanceScore]
    rw [if_pos (Or.inl (by decide)), if_neg (by decide)]
    rw [show (["Python "].countP fun sk =>
          pySubstr (normalizeSkill sk) (pyLower "i know python")) = 1 from by decide]
    norm_num
  exact ⟨h1, h2⟩

/-- Claim C5 as amended: the per-entry relevance score of
`find_relevant_experience` equals `0.4 * title_similarity + 0.6 *
skill_density` where `title_similarity` is the Jaccard similarity of the
lower-cased whitespace-tokenized word sets (0 if either is empty) and
`skill_density` counts required skills whose LOWER-CASED (untrimmed) form is
a case-insensitive substring of the description, divided by the number of
required skills (0 if the required list or the description is empty). -/
theorem claim_c5_relevance_formula (jt : String) (req : List String)
    (e : ExperienceEntry) :
    relevanceScore jt req e = claimRelevanceScoreLower jt req e := by
  dsimp only [relevanceScore, claimRelevanceScoreLower]
  rw [titleTermEq jt e.title, densityTermEq req e.description]

/-- Shape facts about `_generate_talking_points` for arbitrary inputs:
between 1 and 4 points, the last always the industry-enthusiasm sentence. -/
theorem talkingPointsShape (sa : SkillMatchResult) (rel : List ExperienceEntry)
    (job : JobAnalysis) :
    1 ≤ (generate_talking_points sa rel job).length
    ∧ (generate_talking_points sa rel job).length ≤ 4
    ∧ (generate_talking_points sa rel job).getLast?
        = some (industryPoint (job.industry.getD "technology")) := by
  unfold generate_talking_points
  refine ⟨?_, ?_, ?_⟩
  · split_ifs <;> cases rel <;> simp
  · split_ifs <;> cases rel <;> simp
  · split_ifs <;> cases rel <;> simp

/-- Claim C7: the talking points computed inside
`generate_personalized_content` are exactly the fixed-order concatenation of
the three guarded sentences (skills match above `0.5`, non-empty relevant
experience, non-empty company) and the unconditional industry sentence;
hence there are between 1 and 4 of them and the last one is always the
industry-enthusiasm sentence. -/
theorem claim_c7_talking_points (cv : CandidateProfile) (job : JobAnalysis) :
    generate_talking_points (analyze_skills_match cv.skills job.key_requirements)
        ((find_relevant_experience cv.experience job.role_title job.key_requirements).2) job
      = (if (0.5 : ℚ) < (analyze_skills_match cv.skills job.key_requirements).match_score
         then [skillsPoint (analyze_skills_match cv.skills job.key_requirements).matched_skills]
         else [])
        ++ (match (find_relevant_experience cv.experience job.role_title job.key_requirements).2 with
            | top_exp :: _ => [experiencePoint top_exp]
            | [] => [])
        ++ (if job.company ≠ "" then [companyPoint job.company] else [])
        ++ [industryPoint (job.industry.getD "technology")]
    ∧ 1 ≤ (generate_talking_points (analyze_skills_match cv.skills job.key_requirements)
        ((find_relevant_experience cv.experience job.role_title job.key_requirements).2) job).length
    ∧ (generate_talking_points (analyze_skills_match cv.skills job.key_requirements)
        ((find_relevant_experience cv.experience job.role_title job.key_requirements).2) job).length ≤ 4
    ∧ (generate_talking_points (analyze_skills_match cv.skills job.key_requirements)
        ((find_relevant_experience cv.experience job.role_title job.key_requirements).2) job).getLast?
        = some (industryPoint (job.industry.getD "technology")) := by
  obtain ⟨h1, h2, h3⟩ := talkingPointsShape (analyze_skills_match cv.skills job.key_requirements)
    ((find_relevant_experience cv.experience job.role_title job.key_requirements).2) job
  exact ⟨rfl, h1, h2, h3⟩

/-- Claim C1 (refuted; the spec is the intent, the code slips): with an empty
skill list the zero result of `analyze_skills_match` omits `total_matched`,
and `_identify_strengths` then faults (`KeyError`) inside
`generate_personalized_content` instead of returning fallback values.  The
intermediate values behave as the claim states (score 0, empty ranked
experience, industry talking point present), but the synthesizer call as a
whole raises. -/
theorem claim_c1_empty_cv_faults :
    (generate_personalized_content
        ⟨⟨"", "", "", "", ""⟩, [], [], []⟩ ⟨"", "", ["Python"], none⟩).1
      = Except.error "KeyError: total_matched"
    ∧ (analyze_skills_match [] ["Python"]).match_score = 0
    ∧ (find_relevant_experience [] "" ["Python"]).2 = []
    ∧ industryPoint "technology"
        ∈ generate_talking_points (analyze_skills_match [] ["Python"]) []
            ⟨"", "", ["Python"], none⟩ := by
  refine ⟨?_, ?_, ?_, ?_⟩
  · dsimp only [generate_personalized_content]
    rw [analyze_zero [] ["Python"] (Or.inr rfl)]
    rfl
  · rw [analyze_zero [] ["Python"] (Or.inr rfl)]
  · rw [find_relevant_snd]
    simp [relevantList]
  · unfold generate_talking_points
    rw [analyze_zero [] ["Python"] (Or.inr rfl)]
    rw [if_neg (by norm_num)]
    simp

/-- Claim C8: the synthesizer is pure with respect to its inputs — after
`generate_personalized_content` the caller-visible `CandidateProfile` and
`JobAnalysis` are unchanged (the `relevance_score` write only ever targets
the value produced by `exp.copy()`), and every entry of the returned
`relevant_experience` is a scored fresh copy of some input entry. -/
theorem claim_c8_purity (cv : CandidateProfile) (job : JobAnalysis) :
    (generate_personalized_content cv job).2.1 = cv
    ∧ (generate_personalized_content cv job).2.2 = job
    ∧ ∀ r, (generate_personalized_content cv job).1 = Except.ok r →
        ∀ e, e ∈ r.relevant_experience →
          ∃ orig, orig ∈ cv.experience
            ∧ e = scoredCopy job.role_title job.key_requirements orig := by
  refine ⟨?_, rfl, ?_⟩
  · dsimp only [generate_personalized_content]
    rw [find_relevant_fst]
  · intro r hr e he
    dsimp only [generate_personalized_content] at hr
    rcases hst : identify_strengths (analyze_skills_match cv.skills job.key_requirements)
        cv.experience cv.education with e' | s
    · rw [hst] at hr
      simp at hr
    · rw [hst] at hr
      simp only [Except.ok.injEq] at hr
      subst hr
      dsimp only at he
      rw [find_relevant_snd] at he
      have h1 := List.mem_mergeSort.mp (List.take_subset 3 _ he)
      obtain ⟨hmem, hcond⟩ := List.mem_filter.mp h1
      obtain ⟨orig, ho, rfl⟩ := List.mem_map.mp hmem
      exact ⟨orig, ho, rfl⟩

/-! ### A concrete end-to-end run, shared by the witnesses -/

theorem sampleAnalyze :
    analyze_skills_match ["py"] ["py"]
      = { match_score := 1, matched_skills := ["py"], missing_skills := [],
          total_required := some 1, total_matched := some 1 } := by
  rw [analyze_nonempty _ _ (by simp) (by simp)]
  rw [show (["py"].map normalizeSkill) = ["py"] from by decide]
  simp only [skillMatches_eq]
  rw [show (List.filter
        (fun j => List.any ["py"] fun c => pySubstr j c || pySubstr c j || are_abbreviations j c)
        ["py"]) = ["py"] from by decide,
      show (List.filter
        (fun j => !(List.any ["py"] fun c => pySubstr j c || pySubstr c j || are_abbreviations j c))
        ["py"]) = [] from by decide]
  norm_num [SkillMatchResult.mk.injEq]

theorem sampleScore :
    relevanceScore "" ["py"] ⟨"", "", "", "py", none⟩ = 3 / 5 := by
  dsimp only [relevanceScore]
  rw [if_neg (by simp), if_pos ⟨by decide, by decide⟩]
  rw [show count_skills_in_text ["py"] "py" = 1 from by decide]
  norm_num

theorem sampleScoredCopy :
    scoredCopy "" ["py"] ⟨"", "", "", "py", none⟩ = ⟨"", "", "", "py", some (3 / 5)⟩ := by
  simp [scoredCopy, expCopy, sampleScore]

theorem sampleFindSnd :
    (find_relevant_experience [⟨"", "", "", "py", none⟩] "" ["py"]).2
      = [⟨"", "", "", "py", some (3 / 5)⟩] := by
  rw [find_relevant_snd]
  have hrl : relevantList "" ["py"] [⟨"", "", "", "py", none⟩]
      = [(⟨"", "", "", "py", some (3 / 5)⟩ : ExperienceEntry)] := by
    simp only [relevantList, List.map_cons, List.map_nil, List.filter_cons, List.filter_nil,
      sortKey_scoredCopy, sampleScore, decide_eq_true_eq, sampleScoredCopy]
    rw [if_pos (by norm_num [sortKey])]
  rw [hrl, List.mergeSort_singleton]
  rfl

theorem sampleStrengths :
    identify_strengths
        { match_score := 1, matched_skills := ["py"], missing_skills := [],
          total_required := some 1, total_matched := some 1 }
        [⟨"", "", "", "py", none⟩] []
      = Except.ok ["Strong technical skills alignment"] := by
  dsimp only [identify_strengths]
  rw [if_pos (by norm_num : (0.7 : ℚ) < 1), if_neg (by norm_num : ¬ (5 < 1)),
    if_neg (by simp), if_neg (by simp)]
  simp

theorem sampleTalking :
    generate_talking_points
        { match_score := 1, matched_skills := ["py"], missing_skills := [],
          total_required := some 1, total_matched := some 1 }
        [⟨"", "", "", "py", some (3 / 5)⟩] ⟨"", "", ["py"], none⟩
      = [skillsPoint ["py"], experiencePoint ⟨"", "", "", "py", some (3 / 5)⟩,
         industryPoint "technology"] := by
  dsimp only [generate_talking_points]
  rw [if_pos (by norm_num : (0.5 : ℚ) < 1), if_neg (by simp)]
  rfl

theorem sampleEmphasis :
    identify_emphasis_areas ⟨"", "", ["py"], none⟩ = [] := by
  decide

theorem sampleGpc :
    (generate_personalized_content
        ⟨⟨"", "", "", "", ""⟩, [⟨"", "", "", "py", none⟩], ["py"], []⟩
        ⟨"", "", ["py"], none⟩).1
      = Except.ok
          { skills_match :=
              { match_score := 1, matched_skills := ["py"], missing_skills := [],
                total_required := some 1, total_matched := some 1 },
            relevant_experience := [⟨"", "", "", "py", some (3 / 5)⟩],
            talking_points := [skillsPoint ["py"],
              experiencePoint ⟨"", "", "", "py", some (3 / 5)⟩,
              industryPoint "technology"],
            personal_info := ⟨"", "", "", "", ""⟩,
            strengths_to_highlight := ["Strong technical skills alignment"],
            areas_to_emphasize := [] } := by
  dsimp only [generate_personalized_content]
  rw [sampleAnalyze, sampleFindSnd, sampleStrengths, sampleTalking, sampleEmphasis]

/-- Witness for claim C4 on the concrete run: the returned list respects the
length bound, and its member carries a score above the threshold. -/
theorem claim_c4_witness :
    ((find_relevant_experience [⟨"", "", "", "py", none⟩] "" ["py"]).2).length ≤ 3
    ∧ (∃ q : ℚ, (⟨"", "", "", "py", some (3 / 5)⟩ : ExperienceEntry).relevance_score = some q
        ∧ (0.1 : ℚ) < q) := by
  have h := claim_c4_rank_properties [⟨"", "", "", "py", none⟩] "" ["py"]
  refine ⟨h.1, ?_⟩
  apply h.2.2.1
  rw [sampleFindSnd]
  exact List.mem_singleton.mpr rfl

/-- Witness for claim C8 on the concrete run: the inputs are returned
unchanged and the single returned entry is a scored fresh copy of the single
input entry. -/
theorem claim_c8_witness :
    (generate_personalized_content
        ⟨⟨"", "", "", "", ""⟩, [⟨"", "", "", "py", none⟩], ["py"], []⟩
        ⟨"", "", ["py"], none⟩).2.1
      = ⟨⟨"", "", "", "", ""⟩, [⟨"", "", "", "py", none⟩], ["py"], []⟩
    ∧ (generate_personalized_content
        ⟨⟨"", "", "", "", ""⟩, [⟨"", "", "", "py", none⟩], ["py"], []⟩
        ⟨"", "", ["py"], none⟩).2.2 = ⟨"", "", ["py"], none⟩
    ∧ ∃ orig, orig ∈ [(⟨"", "", "", "py", none⟩ : ExperienceEntry)]
        ∧ (⟨"", "", "", "py", some (3 / 5)⟩ : ExperienceEntry) = scoredCopy "" ["py"] orig := by
  have h := claim_c8_purity
    ⟨⟨"", "", "", "", ""⟩, [⟨"", "", "", "py", none⟩], ["py"], []⟩ ⟨"", "", ["py"], none⟩
  refine ⟨h.1, h.2.1, ?_⟩
  exact h.2.2 _ sampleGpc ⟨"", "", "", "py", some (3 / 5)⟩ (List.mem_singleton.mpr rfl)
